import Mathlib

/-!
Verification of the terminfo repository (`src/src/lib.rs` plus the modules it
declares).  The data model (`TermInfo`, `Error`, the `From` conversions) is
embedded from `src/src/lib.rs`.  The repository declares the modules
`searcher`, `parser::compiled` and `parm` but their source files are not part
of the repository snapshot, so the binary decoder and the parameter-expansion
engine are modelled from the specification's words (each such definition says
so in its doc comment).  Machine integers are embedded as `Fin 256` (`u8`) and
`Fin 65536` (`u16`); byte streams are `List (Fin 256)`.
-/

/-- Equality of `Except` results is decidable when it is on both components
(used to evaluate the decoder and the expander on concrete inputs). -/
instance {ε α : Type} [DecidableEq ε] [DecidableEq α] : DecidableEq (Except ε α)
  | .ok a, .ok b =>
    if h : a = b then .isTrue (by rw [h]) else .isFalse (by simp [h])
  | .error a, .error b =>
    if h : a = b then .isTrue (by rw [h]) else .isFalse (by simp [h])
  | .ok _, .error _ => .isFalse (by simp)
  | .error _, .ok _ => .isFalse (by simp)

namespace Terminfo

/-- A `u8` byte of the compiled terminfo byte stream. -/
abbrev Byte := Fin 256

/-- A `u16` value (the compiled format's 16-bit fields). -/
abbrev U16 := Fin 65536

/-- Embedding of `std::str::Utf8Error`: position of the first invalid byte and,
when the error is not an unexpected end of input, the length of the invalid
byte sequence. -/
structure Utf8Error where
  valid_up_to : Nat
  error_len : Option Nat
  deriving DecidableEq, Repr

/-- Embedding of `struct TermInfo` (src/src/lib.rs:26-35): names of the
terminal, and maps (association lists keyed by capability name) of boolean,
numeric (`u16`) and raw string (`Vec<u8>`) capabilities. -/
structure TermInfo where
  names : List String
  bools : List (String × Bool)
  numbers : List (String × U16)
  strings : List (String × List Byte)
  deriving DecidableEq, Repr

/-- Embedding of `enum Error` (src/src/lib.rs:62-89): the structural errors of
terminfo parsing, exactly these variants. -/
inductive Error where
  | BadMagic (v : U16)
  | NotUtf8 (e : Utf8Error)
  | ShortNames
  | TooManyBools
  | TooManyNumbers
  | TooManyStrings
  | InvalidLength
  | NamesMissingNull
  | StringsMissingNull
  deriving DecidableEq, Repr

/-- Embedding of `Error::description` (src/src/lib.rs:116-129). -/
def Error.description : Error → String
  | .BadMagic _ => "incorrect magic number at start of file"
  | .ShortNames => "no names exposed, need at least one"
  | .TooManyBools => "more boolean properties than libterm knows about"
  | .TooManyNumbers => "more number properties than libterm knows about"
  | .TooManyStrings => "more string properties than libterm knows about"
  | .InvalidLength => "invalid length field value, must be >= -1"
  | .NotUtf8 _ => "invalid utf-8"
  | .NamesMissingNull => "names table missing NUL terminator"
  | .StringsMissingNull => "string table missing NUL terminator"

/-- Embedding of `Error::cause` (src/src/lib.rs:131-137): only `NotUtf8`
carries a nested cause, the underlying `Utf8Error`. -/
def Error.cause : Error → Option Utf8Error
  | .NotUtf8 e => some e
  | _ => none

/-- The observed magic value a `BadMagic` error carries (projection used to
state that the constructor keeps its payload). -/
def Error.badMagicValue : Error → Option U16
  | .BadMagic v => some v
  | _ => none

/-- The nested diagnostic a `NotUtf8` error carries (projection used to state
that the constructor keeps its payload). -/
def Error.notUtf8Payload : Error → Option Utf8Error
  | .NotUtf8 e => some e
  | _ => none

/-- Whether an `Error` value is built by the `NotUtf8` constructor. -/
def Error.isNotUtf8 : Error → Bool
  | .NotUtf8 _ => true
  | _ => false

/-- Embedding of `std::string::FromUtf8Error`: the rejected bytes together
with the validation diagnostic returned by its `utf8_error()` accessor. -/
structure FromUtf8Error where
  bytes : List Byte
  utf8_error : Utf8Error
  deriving DecidableEq, Repr

/-- Embedding of `impl From<FromUtf8Error> for Error` (src/src/lib.rs:103-107):
`Error::NotUtf8(v.utf8_error())`. -/
def errorOfFromUtf8 (v : FromUtf8Error) : Error :=
  Error.NotUtf8 v.utf8_error

/-- The `std::io::ErrorKind` values this development distinguishes: the kinds
the specification's error taxonomy talks about (resolver miss, permission
failure on an existing file, structural format error, read past end of
stream), plus a catch-all. -/
inductive IoErrorKind where
  | NotFound
  | PermissionDenied
  | InvalidData
  | UnexpectedEof
  | Other
  deriving DecidableEq, Repr

/-- Embedding of `std::io::Error`: a kind, a message, and (when the error was
built from a structural parse error by `io::Error::new(kind, e)`) the boxed
source error. -/
structure IoError where
  kind : IoErrorKind
  msg : String
  source : Option Error
  deriving DecidableEq, Repr

/-- Embedding of `impl From<Error> for io::Error` (src/src/lib.rs:109-113):
`io::Error::new(io::ErrorKind::InvalidData, e)`. -/
def errorToIo (e : Error) : IoError :=
  { kind := IoErrorKind.InvalidData, msg := e.description, source := some e }

/-- A decoder failure: either a structural parse `Error`, or the I/O error a
read past the end of the byte stream raises (spec section 4.2 step 9 keeps the
two distinct). -/
inductive DecodeErr where
  | structural (e : Error)
  | eof
  deriving DecidableEq, Repr

/-- Modelled from the spec: how many bytes a UTF-8 sequence led by byte `b`
has, with the allowed range of its second byte; `none` for a byte that can
lead no sequence.  Part of the text validation of the names section
(`parser::compiled` is not in src/). -/
def utf8Len (b : Nat) : Option (Nat × Nat × Nat) :=
  if b < 0x80 then some (1, 0, 0)
  else if 0xC2 ≤ b ∧ b ≤ 0xDF then some (2, 0x80, 0xBF)
  else if b = 0xE0 then some (3, 0xA0, 0xBF)
  else if 0xE1 ≤ b ∧ b ≤ 0xEC then some (3, 0x80, 0xBF)
  else if b = 0xED then some (3, 0x80, 0x9F)
  else if 0xEE ≤ b ∧ b ≤ 0xEF then some (3, 0x80, 0xBF)
  else if b = 0xF0 then some (4, 0x90, 0xBF)
  else if 0xF1 ≤ b ∧ b ≤ 0xF3 then some (4, 0x80, 0xBF)
  else if b = 0xF4 then some (4, 0x80, 0x8F)
  else none

/-- Whether a byte is a UTF-8 continuation byte. -/
def isCont (b : Byte) : Bool :=
  0x80 ≤ b.val && b.val ≤ 0xBF

/-- Modelled from the spec: strict UTF-8 decoding of a byte list, reporting
the first failure as a `Utf8Error` with the position of the invalid prefix and
`error_len` counting its bytes (`none` when the input ends mid-sequence),
matching the semantics of `std::str::from_utf8`. -/
def utf8DecodeGo : Nat → List Byte → Except Utf8Error (List Char)
  | _, [] => .ok []
  | i, b1 :: r1 =>
    match utf8Len b1.val with
    | none => .error ⟨i, some 1⟩
    | some (1, _, _) => (utf8DecodeGo (i + 1) r1).map (Char.ofNat b1.val :: ·)
    | some (2, lo, hi) =>
      match r1 with
      | [] => .error ⟨i, none⟩
      | b2 :: r2 =>
        if lo ≤ b2.val ∧ b2.val ≤ hi then
          (utf8DecodeGo (i + 2) r2).map
            (Char.ofNat ((b1.val - 0xC0) * 0x40 + (b2.val - 0x80)) :: ·)
        else .error ⟨i, some 1⟩
    | some (3, lo, hi) =>
      match r1 with
      | [] => .error ⟨i, none⟩
      | b2 :: r2 =>
        if lo ≤ b2.val ∧ b2.val ≤ hi then
          match r2 with
          | [] => .error ⟨i, none⟩
          | b3 :: r3 =>
            if isCont b3 then
              (utf8DecodeGo (i + 3) r3).map
                (Char.ofNat (((b1.val - 0xE0) * 0x40 + (b2.val - 0x80)) * 0x40
                  + (b3.val - 0x80)) :: ·)
            else .error ⟨i, some 2⟩
        else .error ⟨i, some 1⟩
    | some (_, lo, hi) =>
      match r1 with
      | [] => .error ⟨i, none⟩
      | b2 :: r2 =>
        if lo ≤ b2.val ∧ b2.val ≤ hi then
          match r2 with
          | [] => .error ⟨i, none⟩
          | b3 :: r3 =>
            if isCont b3 then
              match r3 with
              | [] => .error ⟨i, none⟩
              | b4 :: r4 =>
                if isCont b4 then
                  (utf8DecodeGo (i + 4) r4).map
                    (Char.ofNat ((((b1.val - 0xF0) * 0x40 + (b2.val - 0x80)) * 0x40
                      + (b3.val - 0x80)) * 0x40 + (b4.val - 0x80)) :: ·)
                else .error ⟨i, some 3⟩
            else .error ⟨i, some 2⟩
        else .error ⟨i, some 1⟩

/-- Embedding of `String::from_utf8`: decode bytes to a string, or return a
`FromUtf8Error` holding the rejected bytes and the diagnostic. -/
def from_utf8 (l : List Byte) : Except FromUtf8Error String :=
  match utf8DecodeGo 0 l with
  | .ok cs => .ok ⟨cs⟩
  | .error u => .error ⟨l, u⟩

/-- The maximal non-separator segments of a list (accumulator form so that the
recursion is structural); used to split the names section on its null
separators. -/
def splitSepAux {α : Type} [DecidableEq α] (sep : α) : List α → List α → List (List α)
  | [], acc => if acc = [] then [] else [acc.reverse]
  | a :: r, acc =>
    if a = sep then
      if acc = [] then splitSepAux sep r [] else acc.reverse :: splitSepAux sep r []
    else splitSepAux sep r (a :: acc)

/-- Split a list on a separator, keeping only the non-empty segments. -/
def splitSep {α : Type} [DecidableEq α] (sep : α) (l : List α) : List (List α) :=
  splitSepAux sep l []

/-- Modelled from the spec (section 4.2 step 3; `parser::compiled` is not in
src/): the names section must be non-empty and null-terminated, its bytes must
be valid text (a failure keeps the nested `Utf8Error` through the
`From<FromUtf8Error>` conversion), and the decoded text is split on null
separators; no resulting name means `ShortNames`. -/
def parseNames (nb : List Byte) : Except DecodeErr (List String) :=
  if nb = [] then .error (.structural .ShortNames)
  else if nb.getLast? ≠ some (0 : Byte) then .error (.structural .NamesMissingNull)
  else
    match from_utf8 nb.dropLast with
    | .error fe => .error (.structural (errorOfFromUtf8 fe))
    | .ok s =>
      if (splitSep '\x00' s.data).map (fun cs => String.mk cs) = [] then
        .error (.structural .ShortNames)
      else .ok ((splitSep '\x00' s.data).map (fun cs => String.mk cs))

/-- Read a 16-bit little-endian value from the head of the stream; a short
stream is a read past end of input. -/
def readU16 : List Byte → Except DecodeErr (U16 × List Byte)
  | a :: b :: r =>
    .ok (⟨a.val + 256 * b.val, by have ha := a.isLt; have hb := b.isLt; omega⟩, r)
  | _ => .error .eof

/-- Read exactly `n` bytes from the head of the stream. -/
def readBytes (n : Nat) (l : List Byte) : Except DecodeErr (List Byte × List Byte) :=
  if l.length < n then .error .eof else .ok (l.take n, l.drop n)

/-- The signed-16-bit reading of a `u16` field. -/
def toSigned (u : U16) : Int :=
  if 32768 ≤ u.val then (u.val : Int) - 65536 else (u.val : Int)

/-- Modelled from the spec (section 4.2 step 2 and section 3's invariants):
a length/count header field must be ≥ −1 as a signed 16-bit value, −1 denoting
an absent section (count 0); anything below −1 is `InvalidLength`. -/
def toCount (u : U16) : Except DecodeErr Nat :=
  if toSigned u < -1 then .error (.structural .InvalidLength)
  else if toSigned u = -1 then .ok 0
  else .ok u.val

/-- Modelled from the spec (section 4.2 step 6; `parser::compiled` is not in
src/): read `count` 16-bit little-endian numbers, matching them positionally
with the numeric capability vocabulary; −1 and −2 are absent, other negative
values are `InvalidLength`, non-negative values are stored. -/
def parseNumbers : List String → Nat → List Byte →
    Except DecodeErr (List (String × U16) × List Byte)
  | _, 0, l => .ok ([], l)
  | [], _ + 1, _ => .error (.structural .TooManyNumbers)
  | n :: vr, count + 1, l =>
    match readU16 l with
    | .error e => .error e
    | .ok (u, r) =>
      if toSigned u = -1 ∨ toSigned u = -2 then parseNumbers vr count r
      else if toSigned u < 0 then .error (.structural .InvalidLength)
      else
        match parseNumbers vr count r with
        | .error e => .error e
        | .ok (entries, rest) => .ok ((n, u) :: entries, rest)

/-- Modelled from the spec (section 4.2 step 7; `parser::compiled` is not in
src/): read `count` 16-bit little-endian string offsets, matching them
positionally with the string capability vocabulary; −1 is absent and any other
negative value is `InvalidLength`. -/
def parseStringOffsets : List String → Nat → List Byte →
    Except DecodeErr (List (String × U16) × List Byte)
  | _, 0, l => .ok ([], l)
  | [], _ + 1, _ => .error (.structural .TooManyStrings)
  | n :: vr, count + 1, l =>
    match readU16 l with
    | .error e => .error e
    | .ok (u, r) =>
      if toSigned u = -1 then parseStringOffsets vr count r
      else if toSigned u < 0 then .error (.structural .InvalidLength)
      else
        match parseStringOffsets vr count r with
        | .error e => .error e
        | .ok (entries, rest) => .ok ((n, u) :: entries, rest)

/-- The bytes before the first null byte, or `none` when no null follows. -/
def takeUntilNull : List Byte → Option (List Byte)
  | [] => none
  | b :: r => if b.val = 0 then some [] else (takeUntilNull r).map (b :: ·)

/-- Modelled from the spec (section 4.2 step 7; `parser::compiled` is not in
src/): resolve each retained string offset inside the string-data block; an
offset past the block is `InvalidLength`, a string with no null terminator
within bounds is `StringsMissingNull`. -/
def extractStrings (table : List Byte) :
    List (String × U16) → Except DecodeErr (List (String × List Byte))
  | [] => .ok []
  | (n, o) :: r =>
    if table.length < o.val then .error (.structural .InvalidLength)
    else
      match takeUntilNull (table.drop o.val) with
      | none => .error (.structural .StringsMissingNull)
      | some bytes =>
        match extractStrings table r with
        | .error e => .error e
        | .ok entries => .ok ((n, bytes) :: entries)

/-- The decoder's steps after the names section (split out so that facts about
the decoded `names` survive the remaining steps); see `parse`. -/
def parseAfterNames (bv nv sv : List String) (bcntU ncntU scntU slenU : U16)
    (nlen : Nat) (ns : List String) (r6 : List Byte) : Except DecodeErr TermInfo :=
  match toCount bcntU with
  | .error e => .error e
  | .ok bcnt =>
    if bv.length < bcnt then .error (.structural .TooManyBools)
    else
      match readBytes bcnt r6 with
      | .error e => .error e
      | .ok (bbytes, r7) =>
        match readBytes (if (nlen + bcnt) % 2 = 1 then 1 else 0) r7 with
        | .error e => .error e
        | .ok (_, r8) =>
          match toCount ncntU with
          | .error e => .error e
          | .ok ncnt =>
            if nv.length < ncnt then .error (.structural .TooManyNumbers)
            else
              match parseNumbers nv ncnt r8 with
              | .error e => .error e
              | .ok (nums, r9) =>
                match toCount scntU with
                | .error e => .error e
                | .ok scnt =>
                  if sv.length < scnt then .error (.structural .TooManyStrings)
                  else
                    match parseStringOffsets sv scnt r9 with
                    | .error e => .error e
                    | .ok (offs, r10) =>
                      match toCount slenU with
                      | .error e => .error e
                      | .ok slen =>
                        match readBytes slen r10 with
                        | .error e => .error e
                        | .ok (stable, _) =>
                          match extractStrings stable offs with
                          | .error e => .error e
                          | .ok strs =>
                            .ok { names := ns,
                                  bools := (bv.zip bbytes).map
                                    (fun p => (p.1, p.2.val != 0)),
                                  numbers := nums, strings := strs }

/-- Modelled from the spec (section 4.2; `parser::compiled` is not in src/):
the compiled-terminfo decoder.  `bv`, `nv` and `sv` are the fixed boolean,
numeric and string capability vocabularies (their concrete lists live in the
missing `parser::names` module, so they are parameters here).  Steps: magic
`0x11A`, five 16-bit header fields, names section, boolean flags, padding to
an even offset, numbers, string offsets plus string data.  The spec's optional
extended-numbers section (step 8) is not decoded: the `numbers` map of
`TermInfo` (src/src/lib.rs:32) has `u16` values, which cannot represent the
wider 32-bit entries that section would carry, so trailing bytes are left
unread. -/
def parse (bv nv sv : List String) (input : List Byte) : Except DecodeErr TermInfo :=
  match readU16 input with
  | .error e => .error e
  | .ok (magic, r0) =>
    if magic.val ≠ 0x11A then .error (.structural (.BadMagic magic))
    else
      match readU16 r0 with
      | .error e => .error e
      | .ok (nlenU, r1) =>
        match readU16 r1 with
        | .error e => .error e
        | .ok (bcntU, r2) =>
          match readU16 r2 with
          | .error e => .error e
          | .ok (ncntU, r3) =>
            match readU16 r3 with
            | .error e => .error e
            | .ok (scntU, r4) =>
              match readU16 r4 with
              | .error e => .error e
              | .ok (slenU, r5) =>
                match toCount nlenU with
                | .error e => .error e
                | .ok nlen =>
                  match readBytes nlen r5 with
                  | .error e => .error e
                  | .ok (nb, r6) =>
                    match parseNames nb with
                    | .error e => .error e
                    | .ok ns => parseAfterNames bv nv sv bcntU ncntU scntU slenU nlen ns r6

/-- A filesystem path (the decoder only ever passes it to the abstract
filesystem, so its contents are opaque). -/
abbrev Path := String

/-- The conversion a decoder failure undergoes when `parse` propagates it as
`io::Result`: structural errors go through `From<Error> for io::Error`
(src/src/lib.rs:109-113), a read past end of stream is the reader's own
`UnexpectedEof` I/O error. -/
def decodeErrToIo : DecodeErr → IoError
  | .structural e => errorToIo e
  | .eof => { kind := IoErrorKind.UnexpectedEof,
              msg := "failed to fill whole buffer", source := none }

/-- Embedding of `TermInfo::_from_path` (src/src/lib.rs:55-59): open the file
(the filesystem is the abstract parameter `fs`, whose failures — not-found,
permission — propagate unchanged) and parse its contents. -/
def _from_path (fs : Path → Except IoError (List Byte)) (bv nv sv : List String)
    (p : Path) : Except IoError TermInfo :=
  match fs p with
  | .error e => .error e
  | .ok bytes =>
    match parse bv nv sv bytes with
    | .error e => .error (decodeErrToIo e)
    | .ok t => .ok t

/-- Embedding of `TermInfo::from_path` (src/src/lib.rs:46-48): the generic
entry point converts its argument with `AsRef<Path>` (the abstract `asRef`)
and delegates to `_from_path`. -/
def from_path {α : Type} (fs : Path → Except IoError (List Byte))
    (bv nv sv : List String) (asRef : α → Path) (x : α) : Except IoError TermInfo :=
  _from_path fs bv nv sv (asRef x)

/-- Embedding of `TermInfo::from_name` (src/src/lib.rs:39-43): resolve the
terminal name to a database path (`get_dbpath_for_term` lives in the missing
`searcher` module, so the resolver is the abstract parameter `resolver`); a
miss is the `NotFound` I/O error with message "database not found", a hit is
parsed by `from_path`. -/
def from_name (fs : Path → Except IoError (List Byte)) (bv nv sv : List String)
    (resolver : String → Option Path) (name : String) : Except IoError TermInfo :=
  match resolver name with
  | none => .error { kind := IoErrorKind.NotFound, msg := "database not found",
                     source := none }
  | some p => from_path fs bv nv sv id p

/-- A runtime parameter of capability-string expansion: an integer or a
string (spec section 4.3's contract). -/
inductive Param where
  | int (n : Int)
  | str (s : String)
  deriving DecidableEq, Repr

/-- The failures of capability-string expansion the spec names (stack
underflow, bad parameter index, malformed escape), plus the failures of
applying an operator to a value of the wrong type or dividing by zero, and the
fuel guard of the model's interpreter loop (never reached when the fuel is at
least the input length). -/
inductive ExpError where
  | stackUnderflow
  | badParamIndex
  | malformedEscape
  | typeMismatch
  | divideByZero
  | outOfFuel
  deriving DecidableEq, Repr

/-- Pop the top of the operand stack, or fail with a stack underflow. -/
def popStack (stack : List Param) : Except ExpError (Param × List Param) :=
  match stack with
  | [] => .error .stackUnderflow
  | v :: r => .ok (v, r)

/-- Pop an integer off the operand stack. -/
def popInt (stack : List Param) : Except ExpError (Int × List Param) :=
  match stack with
  | [] => .error .stackUnderflow
  | .int n :: r => .ok (n, r)
  | .str _ :: _ => .error .typeMismatch

/-- Left-pad a character list to the given width. -/
def padLeft (c : Char) (w : Nat) (l : List Char) : List Char :=
  List.replicate (w - l.length) c ++ l

/-- The digits of `n` in the given base, upper-cased for `%X`. -/
def intDigits (base : Nat) (upper : Bool) (n : Nat) : List Char :=
  let d := Nat.toDigits base n
  if upper then d.map Char.toUpper else d

/-- printf-style integer formatting with the zero-pad flag and a field width
(spec section 4.3: `%d`, `%o`, `%x`, `%X` with `%2d`, `%02d`-style
modifiers). -/
def formatIntChars (zero : Bool) (w : Nat) (base : Nat) (upper : Bool)
    (n : Int) : List Char :=
  if n < 0 then
    let d := intDigits base upper n.natAbs
    if zero then '-' :: padLeft '0' (w - 1) d else padLeft ' ' w ('-' :: d)
  else padLeft (if zero then '0' else ' ') w (intDigits base upper n.toNat)

/-- Apply one formatting conversion to a popped value (spec section 4.3:
`%d`, `%o`, `%x`, `%X` format an integer, `%s` a string, `%c` an integer as a
character). -/
def formatParam (zero : Bool) (w : Nat) (conv : Char) (v : Param) :
    Except ExpError (List Char) :=
  match conv, v with
  | 'd', .int n => .ok (formatIntChars zero w 10 false n)
  | 'o', .int n => .ok (formatIntChars zero w 8 false n)
  | 'x', .int n => .ok (formatIntChars zero w 16 false n)
  | 'X', .int n => .ok (formatIntChars zero w 16 true n)
  | 'c', .int n => .ok [Char.ofNat n.toNat]
  | 's', .str s => .ok (padLeft ' ' w s.data)
  | _, _ => .error .typeMismatch

/-- Decimal value of a run of digit characters. -/
def digitsToNat (l : List Char) : Nat :=
  l.foldl (fun a c => a * 10 + (c.toNat - 48)) 0

/-- `%i` adds one to an integer parameter and leaves a string parameter
unchanged. -/
def incrParam : Param → Param
  | .int n => .int (n + 1)
  | .str s => .str s

/-- Increment the first two positional parameters when they are integers
(spec section 4.3's `%i`). -/
def incrFirstTwo : List Param → List Param
  | [] => []
  | [p] => [incrParam p]
  | p :: q :: r => incrParam p :: incrParam q :: r

/-- After a false `%t`: scan forward for the `%e` or the `%;` of the current
conditional, skipping nested `%? … %;` blocks whole, and resume right after
it; a conditional the input never closes resumes at the end of the input. -/
def skipElsePart : List Char → Nat → List Char
  | [], _ => []
  | '%' :: c :: r, d =>
    if c = '?' then skipElsePart r (d + 1)
    else if c = ';' then (if d = 0 then r else skipElsePart r (d - 1))
    else if c = 'e' then (if d = 0 then r else skipElsePart r d)
    else skipElsePart r d
  | _ :: r, d => skipElsePart r d

/-- After a taken branch reaches `%e`: scan forward for the `%;` of the
current conditional, skipping nested `%? … %;` blocks whole. -/
def skipPastEnd : List Char → Nat → List Char
  | [], _ => []
  | '%' :: c :: r, d =>
    if c = '?' then skipPastEnd r (d + 1)
    else if c = ';' then (if d = 0 then r else skipPastEnd r (d - 1))
    else skipPastEnd r d
  | _ :: r, d => skipPastEnd r d

/-- Whether a character opens a printf-style format specification after `%`
(flags `0`, `#`, space, a width digit or a precision dot). -/
def isFormatStart (c : Char) : Bool :=
  c.isDigit || c = '#' || c = ' ' || c = '.'

/-- The zero-pad flag and field width of a format specification's modifier
characters (precision is parsed and ignored, as the spec only requires
field-width and flag modifiers). -/
def formatSpecOf (l : List Char) : Bool × Nat :=
  let zero := decide (l.head? = some '0')
  let widthDigits := (l.dropWhile (fun c => c = '0' || c = '#' || c = ' ')).takeWhile
    Char.isDigit
  (zero, digitsToNat widthDigits)

/-- Whether a character is one of the two-operand `%` operators of spec
section 4.3 (arithmetic, bitwise, comparison, logical). -/
def isBinOp (c : Char) : Bool :=
  c = '+' || c = '-' || c = '*' || c = '/' || c = 'm' || c = '&' || c = '|' ||
  c = '^' || c = '=' || c = '<' || c = '>' || c = 'A' || c = 'O'

/-- Whether a character is a formatting conversion of spec section 4.3. -/
def isConv (c : Char) : Bool :=
  c = 'd' || c = 'o' || c = 'x' || c = 'X' || c = 's' || c = 'c'

/-- Apply a two-operand operator; `a` was pushed before `b` (spec section 4.3:
the result is second-popped OP first-popped).  Division and modulus truncate
toward zero as they do on Rust integers, and a zero right operand is an
error. -/
def applyBinOp (c : Char) (a b : Int) : Except ExpError Int :=
  if c = '+' then .ok (a + b)
  else if c = '-' then .ok (a - b)
  else if c = '*' then .ok (a * b)
  else if c = '/' then (if b = 0 then .error .divideByZero else .ok (a.tdiv b))
  else if c = 'm' then (if b = 0 then .error .divideByZero else .ok (a.tmod b))
  else if c = '&' then .ok (a.toNat.land b.toNat : Nat)
  else if c = '|' then .ok (a.toNat.lor b.toNat : Nat)
  else if c = '^' then .ok (a.toNat.xor b.toNat : Nat)
  else if c = '=' then .ok (if a = b then 1 else 0)
  else if c = '<' then .ok (if a < b then 1 else 0)
  else if c = '>' then .ok (if b < a then 1 else 0)
  else if c = 'A' then .ok (if a ≠ 0 ∧ b ≠ 0 then 1 else 0)
  else if c = 'O' then .ok (if a ≠ 0 ∨ b ≠ 0 then 1 else 0)
  else .error .malformedEscape

/-- Modelled from the spec (section 4.3; `parm` is not in src/): one step of
the single-pass, stack-based interpreter of the `%`-escape language.  Literal
bytes are copied to the output; each escape manipulates the operand stack, the
per-call named variables, or the positional parameters, exactly as the spec's
operator table describes.  `fuel` only guards the recursion and exceeds the
input length at every call from `expand`. -/
def expandGo : Nat → List Char → List Param → List (Char × Param) → List Param →
    List Char → Except ExpError (List Char)
  | 0, _, _, _, _, _ => .error .outOfFuel
  | _ + 1, [], _, _, _, out => .ok out
  | fuel + 1, c :: rest, stack, vars, params, out =>
    if c ≠ '%' then expandGo fuel rest stack vars params (out ++ [c])
    else
      match rest with
      | [] => .error .malformedEscape
      | e :: r2 =>
        if e = '%' then expandGo fuel r2 stack vars params (out ++ ['%'])
        else if e = 'p' then
          match r2 with
          | d :: r3 =>
            if d.isDigit then
              let i := d.toNat - 48
              if 1 ≤ i ∧ i ≤ 9 then
                match params.get? (i - 1) with
                | some v => expandGo fuel r3 (v :: stack) vars params out
                | none => .error .badParamIndex
              else .error .badParamIndex
            else .error .malformedEscape
          | [] => .error .malformedEscape
        else if e = 'P' then
          match r2 with
          | v :: r3 =>
            if v.isAlpha then
              match popStack stack with
              | .error err => .error err
              | .ok (a, s1) => expandGo fuel r3 s1 ((v, a) :: vars) params out
            else .error .malformedEscape
          | [] => .error .malformedEscape
        else if e = 'g' then
          match r2 with
          | v :: r3 =>
            if v.isAlpha then
              expandGo fuel r3 (((vars.lookup v).getD (.int 0)) :: stack) vars params out
            else .error .malformedEscape
          | [] => .error .malformedEscape
        else if e = '\'' then
          match r2 with
          | ch :: q :: r3 =>
            if q = '\'' then expandGo fuel r3 (.int ch.toNat :: stack) vars params out
            else .error .malformedEscape
          | _ => .error .malformedEscape
        else if e = '{' then
          let ds := r2.takeWhile Char.isDigit
          if ds = [] then .error .malformedEscape
          else
            match r2.drop ds.length with
            | '}' :: r3 =>
              expandGo fuel r3 (.int (digitsToNat ds) :: stack) vars params out
            | _ => .error .malformedEscape
        else if e = 'l' then
          match popStack stack with
          | .error err => .error err
          | .ok (.str s, s1) =>
            expandGo fuel r2 (.int s.length :: s1) vars params out
          | .ok (.int _, _) => .error .typeMismatch
        else if isBinOp e then
          match popInt stack with
          | .error err => .error err
          | .ok (b, s1) =>
            match popInt s1 with
            | .error err => .error err
            | .ok (a, s2) =>
              match applyBinOp e a b with
              | .error err => .error err
              | .ok n => expandGo fuel r2 (.int n :: s2) vars params out
        else if e = '!' then
          match popInt stack with
          | .error err => .error err
          | .ok (a, s1) =>
            expandGo fuel r2 (.int (if a = 0 then 1 else 0) :: s1) vars params out
        else if e = '~' then
          match popInt stack with
          | .error err => .error err
          | .ok (a, s1) => expandGo fuel r2 (.int (-a - 1) :: s1) vars params out
        else if e = 'i' then expandGo fuel r2 stack vars (incrFirstTwo params) out
        else if e = '?' then expandGo fuel r2 stack vars params out
        else if e = 't' then
          match popInt stack with
          | .error err => .error err
          | .ok (cond, s1) =>
            if cond ≠ 0 then expandGo fuel r2 s1 vars params out
            else expandGo fuel (skipElsePart r2 0) s1 vars params out
        else if e = 'e' then expandGo fuel (skipPastEnd r2 0) stack vars params out
        else if e = ';' then expandGo fuel r2 stack vars params out
        else if isConv e then
          match popStack stack with
          | .error err => .error err
          | .ok (v, s1) =>
            match formatParam false 0 e v with
            | .error err => .error err
            | .ok cs => expandGo fuel r2 s1 vars params (out ++ cs)
        else if isFormatStart e then
          let sc := (e :: r2).takeWhile isFormatStart
          match (e :: r2).drop sc.length with
          | conv :: r3 =>
            if isConv conv then
              match popStack stack with
              | .error err => .error err
              | .ok (v, s1) =>
                match formatParam (formatSpecOf sc).1 (formatSpecOf sc).2 conv v with
                | .error err => .error err
                | .ok cs => expandGo fuel r3 s1 vars params (out ++ cs)
            else .error .malformedEscape
          | [] => .error .malformedEscape
        else .error .malformedEscape

/-- Modelled from the spec (section 4.3's contract; `parm` is not in src/):
expand a raw capability string against runtime arguments.  Positional
parameters are bound once from `args`, named variables start unset and live
only for this call, and the output is the copied literal bytes plus whatever
the formatting operators emitted. -/
def expand (raw : String) (args : List Param) : Except ExpError String :=
  match expandGo (raw.data.length + 1) raw.data [] [] args [] with
  | .error e => .error e
  | .ok cs => .ok ⟨cs⟩

/-- Whether a natural number is representable as a value of the `numbers` map
of `TermInfo`, whose value type is `u16` (src/src/lib.rs:32). -/
def numbersValueRepresentable (n : Nat) : Bool :=
  n < 65536

/-- The operations Rust code holding a constructed `TermInfo` can apply to it
through the type's public surface: `clone` (from `derive(Clone)`,
src/src/lib.rs:25, taking `&self`), `Debug` formatting (also `&self`), and —
because all four fields are declared `pub` (src/src/lib.rs:28-34) — direct
assignment to each field. -/
inductive PublicOp where
  | clone
  | fmtDebug
  | setNames (v : List String)
  | setBools (v : List (String × Bool))
  | setNumbers (v : List (String × U16))
  | setStrings (v : List (String × List Byte))
  deriving DecidableEq, Repr

/-- Whether the operation is a direct assignment to one of the `pub` fields
rather than a call of a method the type defines or derives. -/
def PublicOp.isFieldWrite : PublicOp → Bool
  | .clone => false
  | .fmtDebug => false
  | _ => true

/-- The table a holder refers to after applying one public operation: the
methods take `&self` and leave the table unchanged, a field assignment
replaces that field's contents. -/
def applyOp (t : TermInfo) : PublicOp → TermInfo
  | .clone => t
  | .fmtDebug => t
  | .setNames v => { t with names := v }
  | .setBools v => { t with bools := v }
  | .setNumbers v => { t with numbers := v }
  | .setStrings v => { t with strings := v }

/-- The table after a sequence of public operations. -/
def applyOps (t : TermInfo) (ops : List PublicOp) : TermInfo :=
  ops.foldl applyOp t

/-- Claim C1 (amended): every value the decoder stores in a table's `numbers`
map is an unsigned 16-bit integer — the map's value type is `u16`
(src/src/lib.rs:32), so no entry of a decoded table can exceed `2^16 - 1`. -/
theorem C1_numbers_u16 :
    ∀ (bv nv sv : List String) (bytes : List Byte) (t : TermInfo) (p : String × U16),
      parse bv nv sv bytes = .ok t → p ∈ t.numbers →
      (p.2 : Nat) < 65536 ∧ numbersValueRepresentable (p.2 : Nat) = true := by
  intro bv nv sv bytes t p _ _
  exact ⟨p.2.isLt, by simp [numbersValueRepresentable]⟩

/-- Witness for C1 at a concrete input: a stream whose numeric section stores
256 under "colors" decodes successfully, and the stored value is within the
16-bit range. -/
theorem C1_witness :
    ((256 : U16) : Nat) < 65536 ∧ numbersValueRepresentable ((256 : U16) : Nat) = true :=
  C1_numbers_u16 [] ["colors"] []
    [0x1a, 0x01, 2, 0, 0, 0, 1, 0, 0, 0, 0, 0, 0x61, 0, 0, 1]
    { names := ["a"], bools := [], numbers := [("colors", 256)], strings := [] }
    ("colors", 256) (by decide) (by decide)

/-- Counterexample to claim C1 as stated: 70000 is a 32-bit value (it needs
more than 16 bits), and it is not representable as a value of the `numbers`
map, whose value type is `u16` — so the decoder cannot store the spec's
"wider (32-bit)" extended-numbers entries in that same mapping. -/
theorem C1_counterexample :
    numbersValueRepresentable 70000 = false ∧ 65536 ≤ 70000 ∧ 70000 < 2 ^ 32 := by
  decide

/-- Claim C2 (amended): no method the type defines or derives mutates a
constructed table — any sequence of non-field-write public operations leaves
it unchanged.  (The claim as stated fails: the four fields are `pub`, so
direct field assignment is part of the public surface and does mutate.) -/
theorem C2_no_method_mutates :
    ∀ (t : TermInfo) (ops : List PublicOp),
      (∀ op ∈ ops, op.isFieldWrite = false) → applyOps t ops = t := by
  intro t ops
  induction ops generalizing t with
  | nil => intro _; rfl
  | cons op rest ih =>
    intro h
    have hop : op.isFieldWrite = false := h op (List.mem_cons_self op rest)
    have hstep : applyOp t op = t := by
      cases op <;> first | rfl | simp [PublicOp.isFieldWrite] at hop
    have : applyOps t (op :: rest) = applyOps (applyOp t op) rest := rfl
    rw [this, hstep]
    exact ih t (fun o ho => h o (List.mem_cons_of_mem op ho))

/-- Witness for C2 at a concrete input: applying `clone` and `Debug`
formatting to a concrete table leaves it unchanged. -/
theorem C2_witness :
    applyOps { names := ["a"], bools := [], numbers := [], strings := [] }
      [PublicOp.clone, PublicOp.fmtDebug] =
      { names := ["a"], bools := [], numbers := [], strings := [] } :=
  C2_no_method_mutates _ _ (by decide)

/-- Counterexample to claim C2 as stated: assigning to the `pub` field
`names` is a public operation, and it changes a constructed table's
contents. -/
theorem C2_counterexample :
    applyOps { names := ["a"], bools := [], numbers := [], strings := [] }
      [PublicOp.setNames ["b"]] ≠
      { names := ["a"], bools := [], numbers := [], strings := [] } ∧
    applyOps { names := ["a"], bools := [], numbers := [], strings := [] }
      [PublicOp.setNames ["b"]] =
      { names := ["b"], bools := [], numbers := [], strings := [] } := by
  decide

/-- Claim C3: when the resolver finds no candidate path, `from_name`
(src/src/lib.rs:39-43) returns the `NotFound` I/O error, whose kind differs
from the `InvalidData` kind structural parse errors convert to and from the
`PermissionDenied` kind of an existing-but-unreadable file. -/
theorem C3_from_name_not_found :
    ∀ (fs : Path → Except IoError (List Byte)) (bv nv sv : List String)
      (resolver : String → Option Path) (name : String),
      resolver name = none →
      from_name fs bv nv sv resolver name =
        .error { kind := IoErrorKind.NotFound, msg := "database not found",
                 source := none } ∧
      IoErrorKind.NotFound ≠ IoErrorKind.PermissionDenied ∧
      (∀ e : Error, (errorToIo e).kind ≠ IoErrorKind.NotFound) := by
  intro fs bv nv sv resolver name h
  refine ⟨?_, by decide, fun e => by simp [errorToIo]⟩
  simp [from_name, h]

/-- Witness for C3 at a concrete input: a resolver that never finds a path
makes `from_name` report `NotFound`. -/
theorem C3_witness :
    from_name (fun _ => .error { kind := IoErrorKind.Other, msg := "", source := none })
      [] [] [] (fun _ => none) "xterm" =
      .error { kind := IoErrorKind.NotFound, msg := "database not found",
               source := none } ∧
    IoErrorKind.NotFound ≠ IoErrorKind.PermissionDenied ∧
    (∀ e : Error, (errorToIo e).kind ≠ IoErrorKind.NotFound) :=
  C3_from_name_not_found (fun _ => .error ⟨IoErrorKind.Other, "", none⟩)
    [] [] [] (fun _ => none) "xterm" rfl

/-- Claim C4: converting a structural parse `Error` to an I/O error
(src/src/lib.rs:109-113) always yields kind `InvalidData`, which differs from
the `UnexpectedEof` kind of a read past end of stream and from the other I/O
failure kinds. -/
theorem C4_invalid_data_kind :
    ∀ e : Error,
      (errorToIo e).kind = IoErrorKind.InvalidData ∧
      (decodeErrToIo (.structural e)).kind = IoErrorKind.InvalidData ∧
      (decodeErrToIo DecodeErr.eof).kind = IoErrorKind.UnexpectedEof ∧
      (errorToIo e).kind ≠ (decodeErrToIo DecodeErr.eof).kind ∧
      (errorToIo e).kind ≠ IoErrorKind.NotFound ∧
      (errorToIo e).kind ≠ IoErrorKind.PermissionDenied := by
  intro e
  exact ⟨rfl, rfl, rfl, by simp [errorToIo, decodeErrToIo], by simp [errorToIo],
    by simp [errorToIo]⟩

/-- Claim C5: the structural parse-error type consists of exactly the nine
named variants (src/src/lib.rs:62-89), `BadMagic` carrying the observed
16-bit value and `NotUtf8` carrying the text-decoding diagnostic, and the
payload-free variants are pairwise distinct. -/
theorem C5_variant_inventory :
    (∀ e : Error,
      (∃ v, e = Error.BadMagic v) ∨ (∃ u, e = Error.NotUtf8 u) ∨
      e = Error.ShortNames ∨ e = Error.TooManyBools ∨ e = Error.TooManyNumbers ∨
      e = Error.TooManyStrings ∨ e = Error.InvalidLength ∨
      e = Error.NamesMissingNull ∨ e = Error.StringsMissingNull) ∧
    (∀ v : U16, (Error.BadMagic v).badMagicValue = some v) ∧
    (∀ u : Utf8Error, (Error.NotUtf8 u).notUtf8Payload = some u) ∧
    ([Error.ShortNames, Error.TooManyBools, Error.TooManyNumbers,
      Error.TooManyStrings, Error.InvalidLength, Error.NamesMissingNull,
      Error.StringsMissingNull] : List Error).Nodup := by
  refine ⟨?_, fun v => rfl, fun u => rfl, by decide⟩
  intro e
  cases e <;> simp

/-- Claim C6: `Error::cause` (src/src/lib.rs:131-137) returns the nested
`Utf8Error` for `NotUtf8` and nothing for every other variant. -/
theorem C6_cause :
    (∀ u : Utf8Error, (Error.NotUtf8 u).cause = some u) ∧
    (∀ e : Error, e.isNotUtf8 = false → e.cause = none) := by
  refine ⟨fun u => rfl, ?_⟩
  intro e h
  cases e <;> first | rfl | simp [Error.isNotUtf8] at h

/-- A names section the decoder accepts yields a non-empty name list: the
`ShortNames` check runs before the list is returned. -/
theorem parseNames_ok_ne_nil {nb : List Byte} {ns : List String}
    (h : parseNames nb = .ok ns) : ns ≠ [] := by
  unfold parseNames at h
  split at h
  · exact absurd h (by simp)
  · split at h
    · exact absurd h (by simp)
    · split at h
      · exact absurd h (by simp)
      · split at h
        · exact absurd h (by simp)
        · next hne => injection h with h; rw [← h]; exact hne

/-- The decoder's steps after the names section never change the decoded
names: a successfully assembled table carries exactly the names the names
section produced. -/
theorem parseAfterNames_ok_names {bv nv sv : List String}
    {bcntU ncntU scntU slenU : U16} {nlen : Nat} {ns : List String}
    {r6 : List Byte} {t : TermInfo}
    (h : parseAfterNames bv nv sv bcntU ncntU scntU slenU nlen ns r6 = .ok t) :
    t.names = ns := by
  unfold parseAfterNames at h
  repeat' split at h
  all_goals try exact Except.noConfusion h
  injection h with h
  rw [← h]

/-- Claim C7: every byte stream the decoder accepts yields a table with a
non-empty names sequence, and a stream whose names section is empty (names
byte length 0, after a correct magic) fails with `ShortNames` whatever the
remaining header fields and bytes hold. -/
theorem C7_names_nonempty :
    (∀ (bv nv sv : List String) (bytes : List Byte) (t : TermInfo),
      parse bv nv sv bytes = .ok t → t.names ≠ []) ∧
    (∀ (bv nv sv : List String) (c1 c2 c3 c4 c5 c6 c7 c8 : Byte) (rest : List Byte),
      parse bv nv sv (0x1a :: 0x01 :: 0 :: 0 :: c1 :: c2 :: c3 :: c4 :: c5 :: c6 ::
        c7 :: c8 :: rest) = .error (.structural Error.ShortNames)) := by
  constructor
  · intro bv nv sv bytes t h
    unfold parse at h
    repeat' split at h
    all_goals try exact Except.noConfusion h
    rw [parseAfterNames_ok_names h]
    exact parseNames_ok_ne_nil (by assumption)
  · intro bv nv sv c1 c2 c3 c4 c5 c6 c7 c8 rest
    rfl

/-- Witness for C7 at a concrete input: a minimal valid stream decodes to the
single name "a", which is non-empty. -/
theorem C7_witness :
    ({ names := ["a"], bools := [], numbers := [], strings := [] } : TermInfo).names
      ≠ [] :=
  C7_names_nonempty.1 [] [] [] [0x1a, 0x01, 2, 0, 0, 0, 0, 0, 0, 0, 0, 0, 0x61, 0]
    { names := ["a"], bools := [], numbers := [], strings := [] } (by decide)

/-- Claim C8 (amended): the reference expansion examples, with the two
conditional examples adjusted — `%{1}`/`%{0}` only push the literal onto the
operand stack, so the conditional alone outputs nothing and a trailing `%d`
is needed to print the selected branch's value. -/
theorem C8_examples :
    expand "%p1%d" [Param.int 5] = .ok "5" ∧
    expand "%p1%p2%+%d" [Param.int 2, Param.int 3] = .ok "5" ∧
    expand "%p1%p2%-%d" [Param.int 5, Param.int 3] = .ok "2" ∧
    expand "%?%p1%t%{1}%e%{0}%;" [Param.int 0] = .ok "" ∧
    expand "%?%p1%t%{1}%e%{0}%;" [Param.int 1] = .ok "" ∧
    expand "%?%p1%t%{1}%e%{0}%;%d" [Param.int 0] = .ok "0" ∧
    expand "%?%p1%t%{1}%e%{0}%;%d" [Param.int 1] = .ok "1" ∧
    expand "%%" [] = .ok "%" ∧
    expand "%d" [] = .error ExpError.stackUnderflow := by
  decide

/-- Counterexample to claim C8 as stated: the conditional example
`%?%p1%t%{1}%e%{0}%;` with argument 0 expands to the empty output, not to
"0" — the spec's own operator table says `%{nn}` pushes a literal integer
rather than printing it. -/
theorem C8_counterexample :
    expand "%?%p1%t%{1}%e%{0}%;" [Param.int 0] = .ok "" ∧
    expand "%?%p1%t%{1}%e%{0}%;" [Param.int 0] ≠ .ok "0" := by
  decide

/-- Claim C9: the generic entry point `from_path` (src/src/lib.rs:46-48) is
exactly the monomorphic `_from_path` applied to the converted path. -/
theorem C9_from_path_delegates :
    ∀ (α : Type) (fs : Path → Except IoError (List Byte)) (bv nv sv : List String)
      (asRef : α → Path) (x : α),
      from_path fs bv nv sv asRef x = _from_path fs bv nv sv (asRef x) :=
  fun _ _ _ _ _ _ _ => rfl

/-- Claim C10: converting a `FromUtf8Error` into a parse `Error`
(src/src/lib.rs:103-107) always yields `NotUtf8` carrying that failure's
underlying `Utf8Error`, which `cause` then exposes. -/
theorem C10_from_utf8_conversion :
    ∀ v : FromUtf8Error,
      errorOfFromUtf8 v = Error.NotUtf8 v.utf8_error ∧
      (errorOfFromUtf8 v).cause = some v.utf8_error :=
  fun _ => ⟨rfl, rfl⟩

end Terminfo

